import Mathlib

/-!
Verification of the conversion-registry core of BINARY_BASE64_converter.

Shallow embedding of the registry-driven format-conversion library
(`src/converters/registry.py`, `src/converters/base_converter.py`,
`src/converters/encoding.py`, `src/utils/exceptions.py` under
`debian-package/opt/universal-file-operator/`).

Python strings are modelled as Lean `String` (ASCII fragment: `lower`/`strip`
are modelled on the ASCII characters actually used by format names; the
base64 alphabet is pure ASCII).  Python `bytes` are `List Nat` with every
element `< 256`.  Python dicts keyed by format pairs are association lists
with in-place update (preserving insertion order, like CPython dicts).
Exceptions are modelled with `Except` over an explicit error datatype
mirroring `src/utils/exceptions.py`.
-/

/-! ## Character and string utilities (models of Python `str` methods) -/

/-- Whitespace as recognised by Python `str.strip()` / `str.split()`
restricted to ASCII: space, tab, newline, carriage return, vertical tab,
form feed.  (Python also strips some Unicode space characters; none occur
in this code base's format names or in the base64 alphabet.) -/
def isPySpace (c : Char) : Bool :=
  c = ' ' || c = '\t' || c = '\n' || c = '\r' || c = Char.ofNat 11 || c = Char.ofNat 12

/-- ASCII lowercasing of one character, the effect of Python `str.lower()`
on the ASCII characters used for format names. -/
def lowerChar (c : Char) : Char :=
  if 'A' ≤ c ∧ c ≤ 'Z' then Char.ofNat (c.toNat + 32) else c

/-- Drop trailing characters satisfying `p` (helper for `strip`). -/
def dropTrailing (p : Char → Bool) (l : List Char) : List Char :=
  (l.reverse.dropWhile p).reverse

/-- Model of Python `s.strip()`: remove leading and trailing whitespace. -/
def stripChars (l : List Char) : List Char :=
  dropTrailing isPySpace (l.dropWhile isPySpace)

/-- Model of `format.lower().strip()` as performed by
`ConversionRegistry.register_converter` / `get_converter` / `is_supported`
(registry.py lines 94-95, 152-153, 200-201). -/
def normalizeFormat (s : String) : String :=
  String.mk (stripChars (s.data.map lowerChar))

/-- Model of `''.join(data.split())` (encoding.py line 83): removing every
whitespace character from a string's characters. -/
def removeWhitespace (l : List Char) : List Char :=
  l.filter (fun c => !isPySpace c)

/-- Lexicographic `≤` on character lists, the order Python uses to compare
ASCII strings. -/
def charListLe : List Char → List Char → Bool
  | [], _ => true
  | _ :: _, [] => false
  | a :: as, b :: bs => if a < b then true else if a = b then charListLe as bs else false

/-- Lexicographic `≤` on strings (Python string comparison on ASCII). -/
def strLe (s t : String) : Bool :=
  charListLe s.data t.data

/-- Insert into a `le`-sorted list (helper for the model of Python
`sorted`). -/
def insertSorted (le : α → α → Bool) (a : α) : List α → List α
  | [] => [a]
  | b :: l => if le a b then a :: b :: l else b :: insertSorted le a l

/-- Stable insertion sort, the model of Python `sorted` / `list.sort`. -/
def sortList (le : α → α → Bool) (l : List α) : List α :=
  l.foldr (insertSorted le) []

/-- Remove duplicates keeping first occurrences; composed with `sortList`
this models Python `sorted(set(xs))`. -/
def dedupKeepFirst [DecidableEq α] : List α → List α
  | [] => []
  | a :: l => a :: (dedupKeepFirst l).filter (fun b => b ≠ a)

/-! ## Base64 (model of CPython `base64.b64encode` / `base64.b64decode`
as used by `BinaryBase64Converter` in encoding.py) -/

/-- The standard base64 alphabet (RFC 4648), as used by
`base64.b64encode`/`b64decode`. -/
def b64Alphabet : List Char :=
  ['A', 'B', 'C', 'D', 'E', 'F', 'G', 'H', 'I', 'J', 'K', 'L', 'M',
   'N', 'O', 'P', 'Q', 'R', 'S', 'T', 'U', 'V', 'W', 'X', 'Y', 'Z',
   'a', 'b', 'c', 'd', 'e', 'f', 'g', 'h', 'i', 'j', 'k', 'l', 'm',
   'n', 'o', 'p', 'q', 'r', 's', 't', 'u', 'v', 'w', 'x', 'y', 'z',
   '0', '1', '2', '3', '4', '5', '6', '7', '8', '9', '+', '/']

/-- Character for a 6-bit value. -/
def b64Char (n : Nat) : Char :=
  b64Alphabet.getD n 'A'

/-- The 6-bit value of an alphabet character (`none` off the alphabet). -/
def b64Value (c : Char) : Option Nat :=
  b64Alphabet.findIdx? (fun x => x == c)

/-- Model of `base64.b64encode` on a byte list (each byte `< 256`):
three bytes become four alphabet characters, with `=` padding. -/
def b64encodeBytes : List Nat → List Char
  | [] => []
  | [a] =>
      [b64Char (a / 4), b64Char (a % 4 * 16), '=', '=']
  | [a, b] =>
      [b64Char (a / 4), b64Char (a % 4 * 16 + b / 16), b64Char (b % 16 * 4), '=']
  | a :: b :: c :: rest =>
      b64Char (a / 4) :: b64Char (a % 4 * 16 + b / 16) ::
      b64Char (b % 16 * 4 + c / 64) :: b64Char (c % 64) :: b64encodeBytes rest

/-- Decode groups of four base64 characters into bytes, with `=` padding
allowed only at the very end (the effect of `binascii.a2b_base64` on
well-padded input). -/
def b64decodeChunks : List Char → Option (List Nat)
  | [] => some []
  | w :: x :: y :: z :: rest =>
    match b64Value w, b64Value x with
    | some dw, some dx =>
      if y = '=' then
        (if z = '=' ∧ rest = [] then some [dw * 4 + dx / 16] else none)
      else
        match b64Value y with
        | some dy =>
          if z = '=' then
            (if rest = [] then some [dw * 4 + dx / 16, dx % 16 * 16 + dy / 4] else none)
          else
            match b64Value z, b64decodeChunks rest with
            | some dz, some tail =>
                some ((dw * 4 + dx / 16) :: (dx % 16 * 16 + dy / 4) :: (dy % 4 * 64 + dz) :: tail)
            | _, _ => none
        | none => none
    | _, _ => none
  | _ => none

/-- Characters `base64.b64decode` retains: alphabet characters and the
padding character (others are discarded before decoding). -/
def keepB64 (c : Char) : Bool :=
  (b64Value c).isSome || c == '='

/-- Model of `base64.b64decode` on a character list: discard characters
outside the alphabet, require a multiple-of-four length, decode chunks. -/
def b64decodeList (l : List Char) : Option (List Nat) :=
  let filtered := l.filter keepB64
  if filtered.length % 4 = 0 then b64decodeChunks filtered else none

/-! ## Values and exceptions

`PyVal` models the Python values flowing through converters (`bytes`,
`str`, `None`).  `PyErr` models the exception taxonomy of
`src/utils/exceptions.py` plus the built-in exceptions the code interacts
with.  Exception message *rendering* (`__str__` composition) is not
modelled; constructors store the arguments the source passes.  -/

inductive PyVal where
  | pyNone : PyVal
  | pyBytes (bs : List Nat) : PyVal
  | pyStr (s : String) : PyVal
deriving DecidableEq

/-- Python `type(data).__name__` for the modelled values. -/
def pyTypeName : PyVal → String
  | .pyNone => "NoneType"
  | .pyBytes _ => "bytes"
  | .pyStr _ => "str"

inductive PyErr where
  /-- `ConversionError(message, from_format, to_format, original_error)`
  (exceptions.py lines 14-52). -/
  | conversionError (message : String) (from_format to_format : Option String)
      (original_error : Option PyErr) : PyErr
  /-- `UnsupportedFormatError(from_format, to_format, available_formats)`
  (exceptions.py lines 59-82). -/
  | unsupportedFormatError (from_format to_format : String)
      (available_formats : List String) : PyErr
  /-- `ValidationError(message, data_type, expected_format)`
  (exceptions.py lines 85-114). -/
  | validationError (message : String) (data_type expected_format : Option String) : PyErr
  /-- `ConfigurationError(message, config_key, config_file)`
  (exceptions.py lines 117-146). -/
  | configurationError (message : String) (config_key config_file : Option String) : PyErr
  /-- `ProcessingError(message, stage, file_path)` (exceptions.py lines 149-178). -/
  | processingError (message : String) (stage : Option String) : PyErr
  /-- Built-in `ValueError`. -/
  | valueError (message : String) : PyErr
  /-- Built-in `TypeError` (raised e.g. when a constructor receives an
  unexpected keyword argument). -/
  | typeError (message : String) : PyErr
  /-- Built-in `FileNotFoundError`. -/
  | fileNotFoundError (message : String) : PyErr
  /-- Built-in `MemoryError`. -/
  | memoryError (message : String) : PyErr
  /-- Any other built-in exception. -/
  | otherError (message : String) : PyErr

/-- Model of `isinstance(e, ConversionError)`: the five classes of the taxonomy in
exceptions.py all derive from `ConversionError`. -/
def isConversionErr : PyErr → Bool
  | .conversionError _ _ _ _ => true
  | .unsupportedFormatError _ _ _ => true
  | .validationError _ _ _ => true
  | .configurationError _ _ _ => true
  | .processingError _ _ => true
  | _ => false

/-- Model of `isinstance(e, ConfigurationError)`. -/
def isConfigurationErr : PyErr → Bool
  | .configurationError _ _ _ => true
  | _ => false

/-- Primary message stored in an exception (message rendering is
abbreviated: no claim depends on composed message text). -/
def pyErrMessage : PyErr → String
  | .conversionError m _ _ _ => m
  | .unsupportedFormatError f t _ =>
      "Conversion from " ++ f ++ " to " ++ t ++ " is not supported"
  | .validationError m _ _ => m
  | .configurationError m _ _ => m
  | .processingError m _ => m
  | .valueError m => m
  | .typeError m => m
  | .fileNotFoundError m => m
  | .memoryError m => m
  | .otherError m => m

/-- The `available_formats` attribute set by
`UnsupportedFormatError.__init__` (exceptions.py line 82:
`self.available_formats = available_formats or []`). -/
def availableFormatsAttr : PyErr → List String
  | .unsupportedFormatError _ _ av => if av.isEmpty then [] else av
  | _ => []

/-- Model of the `handle_conversion_error` decorator (exceptions.py lines
182-210).  `ConversionError` subclasses are re-raised as-is.  A caught
`ValueError` is passed to `ValidationError(msg, original_error=e)` and a
caught `FileNotFoundError`/`MemoryError` to
`ProcessingError(msg, original_error=e)`; neither constructor accepts an
`original_error` keyword (exceptions.py lines 95, 159), so CPython raises
`TypeError` at the construction site, and that `TypeError` escapes the
wrapper.  Any other exception is wrapped as a generic `ConversionError`
with `original_error` set (that constructor does accept the keyword). -/
def handleConversionError (r : Except PyErr α) : Except PyErr α :=
  match r with
  | .ok v => .ok v
  | .error e =>
    if isConversionErr e then .error e
    else
      match e with
      | .valueError _ =>
          .error (.typeError "ValidationError.__init__ got an unexpected keyword argument original_error")
      | .fileNotFoundError _ =>
          .error (.typeError "ProcessingError.__init__ got an unexpected keyword argument original_error")
      | .memoryError _ =>
          .error (.typeError "ProcessingError.__init__ got an unexpected keyword argument original_error")
      | _ =>
          .error (.conversionError ("Unexpected error: " ++ pyErrMessage e) none none (some e))

/-! ## Converter contract (base_converter.py)

A converter *class* is modelled by the data the registry and the base
class read from it: its name, whether it subclasses `BaseConverter` /
`ReversibleConverter`, the `_converter_*` metadata attributes set by
decorators, and the behaviour of its instances: the description its
`__init__` passes to `BaseConverter.__init__` (empty means "use the
default"), the subclass part of `validate_input` (run after the base
null-check; every converter in the repository calls
`super().validate_input` first), and `_convert`.  -/

structure ConverterClass where
  /-- `__name__` of the class. -/
  name : String
  /-- `issubclass(cls, BaseConverter)`. -/
  isBase : Bool
  /-- `issubclass(cls, ReversibleConverter)`. -/
  isRev : Bool
  /-- `_converter_from_format` attribute, if set. -/
  metaFrom : Option String := none
  /-- `_converter_to_format` attribute, if set. -/
  metaTo : Option String := none
  /-- `_converter_description` attribute. -/
  metaDescription : String := ""
  /-- `_converter_reversible` attribute. -/
  metaReversible : Bool := false
  /-- Description string this class's `__init__` passes to
  `BaseConverter.__init__` (`""` for classes that pass none). -/
  initDescription : String := ""
  /-- Subclass part of `validate_input(data)`, given `self.from_format`. -/
  validateExtra : String → PyVal → Except PyErr Unit := fun _ _ => .ok ()
  /-- `_convert(data, **options)`, given `self.from_format` and
  `self.to_format`. -/
  convertCore : String → String → PyVal → List (String × PyVal) → Except PyErr PyVal :=
    fun _ _ d _ => .ok d

/-- A converter *instance*, as produced by `converter_class(from, to)`:
the observable attributes set by `BaseConverter.__init__`
(base_converter.py lines 43-57) plus the behaviour inherited from the
class. -/
structure ConverterInstance where
  /-- `self.__class__.__name__`. -/
  clsName : String
  /-- `self.from_format = from_format.lower()`. -/
  from_format : String
  /-- `self.to_format = to_format.lower()`. -/
  to_format : String
  /-- `self.description = description or f"Converts x to y"`. -/
  description : String
  /-- `self.supports_options = True`. -/
  supports_options : Bool
  validateExtra : String → PyVal → Except PyErr Unit
  convertCore : String → String → PyVal → List (String × PyVal) → Except PyErr PyVal

/-- ASCII model of Python `str.lower()` on a whole string. -/
def lowerString (s : String) : String :=
  String.mk (s.data.map lowerChar)

/-- Default description `f"Converts {from_format} to {to_format}"`
(base_converter.py line 54). -/
def defaultDescription (f t : String) : String :=
  "Converts " ++ f ++ " to " ++ t

/-- Model of `converter_class(from_format, to_format)`: runs
`BaseConverter.__init__` with the description the subclass's `__init__`
supplies. -/
def instNew (cls : ConverterClass) (f t : String) : ConverterInstance :=
  { clsName := cls.name
    from_format := lowerString f
    to_format := lowerString t
    description := if cls.initDescription = "" then defaultDescription f t else cls.initDescription
    supports_options := true
    validateExtra := cls.validateExtra
    convertCore := cls.convertCore }

/-- Model of `BaseConverter.validate_input` (base_converter.py lines 79-97)
followed by the subclass checks: fails on `None`, merely logs on empty
sequences. -/
def instValidateInput (inst : ConverterInstance) (data : PyVal) : Except PyErr Unit :=
  match data with
  | .pyNone =>
      .error (.validationError "Input data cannot be None" none (some inst.from_format))
  | _ => inst.validateExtra inst.from_format data

/-- Model of `BaseConverter.validate_options` (base_converter.py lines 99-118):
discards options when unsupported, otherwise returns a copy. -/
def instValidateOptions (inst : ConverterInstance) (options : List (String × PyVal)) :
    List (String × PyVal) :=
  if !inst.supports_options && !options.isEmpty then [] else options

/-- Body of `BaseConverter.convert` (base_converter.py lines 120-173,
before the `handle_conversion_error` wrapper): validate input, validate
options, run `_convert` inside a `try` that re-raises `ConversionError`s
and wraps anything else as a generic `ConversionError` carrying
`from_format`, `to_format` and the original failure. -/
def instConvertBody (inst : ConverterInstance) (data : PyVal)
    (options : List (String × PyVal)) : Except PyErr PyVal :=
  match instValidateInput inst data with
  | .error e => .error e
  | .ok _ =>
    let validated := instValidateOptions inst options
    match inst.convertCore inst.from_format inst.to_format data validated with
    | .ok r => .ok r
    | .error e =>
      if isConversionErr e then .error e
      else
        .error (.conversionError ("Conversion failed: " ++ pyErrMessage e)
          (some inst.from_format) (some inst.to_format) (some e))

/-- Model of `BaseConverter.convert`: the body above wrapped by
`@handle_conversion_error`. -/
def instConvert (inst : ConverterInstance) (data : PyVal)
    (options : List (String × PyVal)) : Except PyErr PyVal :=
  handleConversionError (instConvertBody inst data options)

/-! ## Registry (registry.py)

The dict `self._converters` is modelled as an association list with
CPython dict semantics: updating an existing key replaces its value in
place, a new key is appended.  `self._format_graph` (a
`defaultdict(set)`) and `self._format_converters` (a `defaultdict(list)`)
are carried for faithfulness although no registry operation verified here
reads them back. -/

/-- Dict lookup (`d[k]` / `k in d`). -/
def dictLookup [DecidableEq κ] : List (κ × α) → κ → Option α
  | [], _ => none
  | (k', v) :: rest, k => if k' = k then some v else dictLookup rest k

/-- Dict update `d[k] = v`: replace in place or append. -/
def dictInsert [DecidableEq κ] : List (κ × α) → κ → α → List (κ × α)
  | [], k, v => [(k, v)]
  | (k', v') :: rest, k, v =>
      if k' = k then (k, v) :: rest else (k', v') :: dictInsert rest k v

/-- Model of `defaultdict(set)` edge insertion: `graph[f].add(t)`. -/
def graphAdd (g : List (String × List String)) (f t : String) : List (String × List String) :=
  match dictLookup g f with
  | some outs => dictInsert g f (if t ∈ outs then outs else outs ++ [t])
  | none => g ++ [(f, [t])]

/-- Model of `defaultdict(list)` append: `fc[fmt].append(cls)`. -/
def fcAppend (fc : List (String × List ConverterClass)) (fmt : String)
    (cls : ConverterClass) : List (String × List ConverterClass) :=
  match dictLookup fc fmt with
  | some l => dictInsert fc fmt (l ++ [cls])
  | none => fc ++ [(fmt, [cls])]

/-- State of a `ConversionRegistry` (registry.py lines 46-60). -/
structure Registry where
  converters : List ((String × String) × ConverterClass)
  format_graph : List (String × List String)
  format_converters : List (String × List ConverterClass)
  registered_count : Nat

/-- Result of `ConversionRegistry.__init__` / `clear()`: everything empty. -/
def emptyRegistry : Registry :=
  { converters := [], format_graph := [], format_converters := [], registered_count := 0 }

/-- Format resolution at the top of `register_converter` (registry.py
lines 81-85): explicit argument if not `None`, else class metadata. -/
def resolveFormat (explicitArg : Option String) (meta : Option String) : Option String :=
  match explicitArg with
  | some s => some s
  | none => meta

/-- Python falsiness of an optional string (`not from_format`):
`None` and the empty string are falsy. -/
def isFalsy : Option String → Bool
  | none => true
  | some s => s == ""

/-- Model of `ConversionRegistry.register_converter` (registry.py lines 62-131).
Resolves formats (raising a generic `ConversionError` when either is
missing), normalizes them, warns (no state change) on override, raises
`ConversionError` when the class is not a `BaseConverter` subclass,
registers the pair, and — when `auto_reverse` holds, the class is a
`ReversibleConverter` subclass and the reverse pair is not in the map
*after* the forward insertion — registers the reverse pair too. -/
def register_converter (reg : Registry) (converter_class : ConverterClass)
    (from_format to_format : Option String) (auto_reverse : Bool) :
    Except PyErr Registry :=
  let fromR := resolveFormat from_format converter_class.metaFrom
  let toR := resolveFormat to_format converter_class.metaTo
  if isFalsy fromR || isFalsy toR then
    .error (.conversionError
      ("Cannot register " ++ converter_class.name ++ ": missing format information. " ++
       "Provide from_format and to_format parameters or use @converter_info decorator.")
      none none none)
  else
    let f := normalizeFormat (fromR.getD "")
    let t := normalizeFormat (toR.getD "")
    if !converter_class.isBase then
      .error (.conversionError
        ("Converter " ++ converter_class.name ++ " must inherit from BaseConverter")
        none none none)
    else
      let conv1 := dictInsert reg.converters (f, t) converter_class
      let graph1 := graphAdd reg.format_graph f t
      let fc1 := fcAppend (fcAppend reg.format_converters f converter_class) t converter_class
      if auto_reverse && converter_class.isRev && (dictLookup conv1 (t, f)).isNone then
        .ok { converters := dictInsert conv1 (t, f) converter_class
              format_graph := graphAdd graph1 t f
              format_converters := fc1
              registered_count := reg.registered_count + 2 }
      else
        .ok { converters := conv1
              format_graph := graph1
              format_converters := fc1
              registered_count := reg.registered_count + 1 }

/-- Model of `ConversionRegistry.get_supported_formats` (registry.py lines
204-215): the sorted set of all format names occurring in registered
pairs. -/
def get_supported_formats (reg : Registry) : List String :=
  sortList strLe (dedupKeepFirst
    ((reg.converters.map (fun p => [p.1.1, p.1.2])).flatten))

/-- Model of `ConversionRegistry.get_converter` (registry.py lines 133-164):
normalize, look up the direct pair, instantiate on a hit, otherwise raise
`UnsupportedFormatError` with the current supported-format list. -/
def get_converter (reg : Registry) (from_format to_format : String) :
    Except PyErr ConverterInstance :=
  let f := normalizeFormat from_format
  let t := normalizeFormat to_format
  match dictLookup reg.converters (f, t) with
  | some cls => .ok (instNew cls f t)
  | none => .error (.unsupportedFormatError f t (get_supported_formats reg))

/-- Model of `ConversionRegistry.convert` (registry.py lines 166-187): get the
converter and delegate. -/
def registry_convert (reg : Registry) (data : PyVal)
    (from_format to_format : String) (options : List (String × PyVal)) :
    Except PyErr PyVal :=
  match get_converter reg from_format to_format with
  | .ok converter => instConvert converter data options
  | .error e => .error e

/-- Model of `ConversionRegistry.is_supported` (registry.py lines 189-202). -/
def is_supported (reg : Registry) (from_format to_format : String) : Bool :=
  (dictLookup reg.converters (normalizeFormat from_format, normalizeFormat to_format)).isSome

/-- One entry of `list_conversions()` output (registry.py lines 240-246). -/
structure ConvInfo where
  fromFormat : String
  toFormat : String
  description : String
  converter : String
  reversible : Bool
deriving DecidableEq

/-- Sort key order of `list_conversions` (registry.py line 249): by
`(from, to)` lexicographically. -/
def convInfoLe (a b : ConvInfo) : Bool :=
  if a.fromFormat = b.fromFormat then strLe a.toFormat b.toFormat
  else strLe a.fromFormat b.fromFormat

/-- Model of `ConversionRegistry.list_conversions` (registry.py lines 217-250):
for each registered pair, instantiate the converter transiently to read
its description, then sort by `(from, to)`. -/
def list_conversions (reg : Registry) : List ConvInfo :=
  sortList convInfoLe
    (reg.converters.map (fun p =>
      { fromFormat := p.1.1
        toFormat := p.1.2
        description := (instNew p.2 p.1.1 p.1.2).description
        converter := p.2.name
        reversible := p.2.isRev }))

/-- Metadata attachment performed by the `register_converter` decorator
(registry.py lines 353-358). -/
def setDecoratorMeta (from_format to_format : Option String) (description : String)
    (reversible : Bool) (cls : ConverterClass) : ConverterClass :=
  { cls with
    metaFrom := from_format
    metaTo := to_format
    metaDescription := description
    metaReversible := reversible }

/-- The `register_converter` decorator (registry.py lines 334-373):
attaches metadata to the class, then registers it with the registry with
`auto_reverse=reversible`, *catching* any registration exception (it is
only logged; the class is returned unchanged and the registry is left as
it was). -/
def registerDecorator (from_format to_format : Option String) (description : String)
    (reversible : Bool) (cls : ConverterClass) (reg : Registry) :
    ConverterClass × Registry :=
  let cls' := setDecoratorMeta from_format to_format description reversible cls
  match register_converter reg cls' from_format to_format reversible with
  | .ok reg' => (cls', reg')
  | .error _ => (cls', reg)

/-! ## Concrete converters (encoding.py) and concrete registries -/

/-- Model of `BinaryBase64Converter` (encoding.py lines 29-86): a
`ReversibleConverter` between `binary` (bytes) and `base64` (string).
Its `__init__` fixes `format_a = binary`, `format_b = base64` and passes
a fixed description; `validate_input` calls `super()` then type-checks by
direction; `_convert` routes on `(from_format, to_format)` and raises a
`ConversionError` on an invalid combination. -/
def BinaryBase64Converter : ConverterClass :=
  { name := "BinaryBase64Converter"
    isBase := true
    isRev := true
    initDescription := "Convert binary data to/from Base64 encoding"
    validateExtra := fun fromF data =>
      if fromF = "binary" then
        match data with
        | .pyBytes _ => .ok ()
        | _ => .error (.validationError
            ("Binary format requires bytes input, got " ++ pyTypeName data)
            (some (pyTypeName data)) (some "bytes"))
      else if fromF = "base64" then
        match data with
        | .pyStr _ => .ok ()
        | _ => .error (.validationError
            ("Base64 format requires string input, got " ++ pyTypeName data)
            (some (pyTypeName data)) (some "str"))
      else .ok ()
    convertCore := fun fromF toF data _options =>
      if fromF = "binary" ∧ toF = "base64" then
        match data with
        | .pyBytes bs => .ok (.pyStr (String.mk (b64encodeBytes bs)))
        | _ => .error (.conversionError "Failed to encode binary to base64"
            none none (some (.typeError "argument should be a bytes-like object")))
      else if fromF = "base64" ∧ toF = "binary" then
        match data with
        | .pyStr s =>
          match b64decodeList (removeWhitespace s.data) with
          | some bs => .ok (.pyBytes bs)
          | none => .error (.conversionError "Failed to decode base64 to binary"
              none none (some (.otherError "binascii.Error")))
        | _ => .error (.conversionError "Failed to decode base64 to binary"
            none none (some (.typeError "argument should be a bytes-like object")))
      else
        .error (.conversionError ("Invalid format combination: " ++ fromF ++ " -> " ++ toF)
          (some fromF) (some toF) none) }

/-- A minimal `BaseConverter` subclass with no decorator metadata
(stand-in for an arbitrary plain converter class). -/
def PlainConverter : ConverterClass :=
  { name := "PlainConverter", isBase := true, isRev := false }

/-- A minimal `ReversibleConverter` subclass (stand-in for an arbitrary
reversible converter class). -/
def SelfRevConverter : ConverterClass :=
  { name := "SelfRevConverter", isBase := true, isRev := true }

/-- A `BaseConverter` subclass whose `validate_input` raises the built-in
`ValueError` (nothing in the contract prevents this; `validate_input` is
an arbitrary override point). -/
def BadValidateConverter : ConverterClass :=
  { name := "BadValidateConverter", isBase := true, isRev := false
    validateExtra := fun _ _ => .error (.valueError "boom") }

/-- Registry produced by a successful registration, used to state
concrete facts (registration is atomic in the source: on an exception the
registry is unchanged, so the error fallback here is never hit in the
concrete uses below). -/
def regOkOr (r : Except PyErr Registry) : Registry :=
  match r with
  | .ok reg => reg
  | .error _ => emptyRegistry

/-- The registry state after the module-load registration of
`BinaryBase64Converter` performed by its decorator
`@register_converter(binary, base64, ..., reversible=True)`
(encoding.py line 29). -/
def binBase64Registry : Registry :=
  (registerDecorator (some "binary") (some "base64") "Binary data to Base64 encoding"
    true BinaryBase64Converter emptyRegistry).2

/-- The bytes of `b"Hello World"`. -/
def helloWorldBytes : List Nat := [72, 101, 108, 108, 111, 32, 87, 111, 114, 108, 100]

/-- Registry with the pair `(a, a)` registered to `PlainConverter`
(setup for the self-pair counterexample). -/
def regSelfPairBefore : Registry :=
  regOkOr (register_converter emptyRegistry PlainConverter (some "a") (some "a") false)

/-- State of `regSelfPairBefore` after registering the reversible
`SelfRevConverter` for the same pair `(a, a)` with auto-reverse. -/
def regSelfPairAfter : Registry :=
  regOkOr (register_converter regSelfPairBefore SelfRevConverter (some "a") (some "a") true)

/-- Registry after registering `PlainConverter` with the whitespace-only
source format name `" "` (setup for the empty-format-name
counterexample). -/
def regWhitespaceName : Registry :=
  regOkOr (register_converter emptyRegistry PlainConverter (some " ") (some "b64") false)

/-- Registry with `(b, a)` registered to `PlainConverter` (setup for the
explicit-wins witness). -/
def regExplicitBA : Registry :=
  regOkOr (register_converter emptyRegistry PlainConverter (some "b") (some "a") false)

/-- State of `regExplicitBA` after registering the reversible `SelfRevConverter`
for `(a, b)` with auto-reverse: the explicit `(b, a)` entry must
survive. -/
def regExplicitBAafter : Registry :=
  regOkOr (register_converter regExplicitBA SelfRevConverter (some "a") (some "b") true)

/-- Registry with `(x, y)` registered to `PlainConverter` (setup for the
last-write-wins witness). -/
def regXYfirst : Registry :=
  regOkOr (register_converter emptyRegistry PlainConverter (some "x") (some "y") false)

/-- State of `regXYfirst` after re-registering `(x, y)` to `SelfRevConverter`. -/
def regXYsecond : Registry :=
  regOkOr (register_converter regXYfirst SelfRevConverter (some "x") (some "y") false)

/-- Registry produced by registering `BinaryBase64Converter` directly
(not through the decorator), for the auto-reverse witness. -/
def regBinB64Direct : Registry :=
  regOkOr (register_converter emptyRegistry BinaryBase64Converter
    (some "binary") (some "base64") true)

/-! ## Claim C9: format names stored in the registry -/

/-- A queued registration call (converter class plus the arguments of one
`register_converter` invocation). -/
structure RegRequest where
  cls : ConverterClass
  from_format : Option String
  to_format : Option String
  auto_reverse : Bool

/-- Run one registration; on an exception the registry is unchanged
(registration in the source raises before any mutation). -/
def applyRequest (reg : Registry) (r : RegRequest) : Registry :=
  match register_converter reg r.cls r.from_format r.to_format r.auto_reverse with
  | .ok reg' => reg'
  | .error _ => reg

/-- Run a sequence of registrations. -/
def applyRequests (reg : Registry) (rs : List RegRequest) : Registry :=
  rs.foldl applyRequest reg

/-- No format name stored in a registered pair is the empty string. -/
def NoEmptyNames (reg : Registry) : Prop :=
  ∀ p ∈ reg.converters, p.1.1 ≠ "" ∧ p.1.2 ≠ ""

/-- A registration request whose resolved format names do not *normalize*
to the empty string (e.g. they contain a non-whitespace character). -/
def goodRequest (r : RegRequest) : Prop :=
  normalizeFormat ((resolveFormat r.from_format r.cls.metaFrom).getD "") ≠ "" ∧
  normalizeFormat ((resolveFormat r.to_format r.cls.metaTo).getD "") ≠ ""

/-! ## Claim C10: the decorator description has no observable effect

Two converter classes are *projection-equal* when they agree on every
field except the `_converter_description` attribute (which nothing in
the registry or the base class ever reads back).  Registries whose
converter maps are pointwise projection-equal are indistinguishable
through `list_conversions` and `get_converter`. -/

/-- Forget the `_converter_description` attribute. -/
def eraseDescMeta (c : ConverterClass) : ConverterClass :=
  { c with metaDescription := "" }

/-- Equality up to the `_converter_description` attribute. -/
abbrev projEq (c1 c2 : ConverterClass) : Prop :=
  eraseDescMeta c1 = eraseDescMeta c2

/-- Entry-wise relation on converter maps: equal keys,
projection-equal classes. -/
def convListRel (l1 l2 : List ((String × String) × ConverterClass)) : Prop :=
  List.Forall₂ (fun p q => p.1 = q.1 ∧ projEq p.2 q.2) l1 l2

/-! ## Lemmas and claim theorems -/

/-! ## Base64 lemmas -/

theorem b64Value_b64Char : ∀ n, n < 64 → b64Value (b64Char n) = some n := by
  decide

theorem b64Char_ne_pad : ∀ n, n < 64 → b64Char n ≠ '=' := by
  decide

theorem b64Char_not_space : ∀ n, n < 64 → isPySpace (b64Char n) = false := by
  decide

theorem keepB64_b64Char : ∀ n, n < 64 → keepB64 (b64Char n) = true := by
  decide

theorem keepB64_pad : keepB64 '=' = true := by decide

theorem isPySpace_pad : isPySpace '=' = false := by decide

/-- Every base64-encoded string has length a multiple of four. -/
theorem b64encodeBytes_length_mod : ∀ bs : List Nat, (b64encodeBytes bs).length % 4 = 0
  | [] => by simp [b64encodeBytes]
  | [_] => by simp [b64encodeBytes]
  | [_, _] => by simp [b64encodeBytes]
  | _ :: _ :: _ :: rest => by
      have ih := b64encodeBytes_length_mod rest
      simp only [b64encodeBytes, List.length_cons]
      omega

/-- Encoded output consists only of characters `b64decode` keeps. -/
theorem b64encodeBytes_filter_keep :
    ∀ bs : List Nat, (∀ b ∈ bs, b < 256) →
      (b64encodeBytes bs).filter keepB64 = b64encodeBytes bs
  | [], _ => by simp [b64encodeBytes]
  | [a], h => by
      have ha : a < 256 := h a (by simp)
      simp [b64encodeBytes, List.filter_cons, keepB64_pad,
        keepB64_b64Char (a / 4) (by omega),
        keepB64_b64Char (a % 4 * 16) (by omega)]
  | [a, b], h => by
      have ha : a < 256 := h a (by simp)
      have hb : b < 256 := h b (by simp)
      simp [b64encodeBytes, List.filter_cons, keepB64_pad,
        keepB64_b64Char (a / 4) (by omega),
        keepB64_b64Char (a % 4 * 16 + b / 16) (by omega),
        keepB64_b64Char (b % 16 * 4) (by omega)]
  | a :: b :: c :: rest, h => by
      have ha : a < 256 := h a (by simp)
      have hb : b < 256 := h b (by simp)
      have hc : c < 256 := h c (by simp)
      have ih := b64encodeBytes_filter_keep rest (fun x hx => h x (by simp [hx]))
      simp [b64encodeBytes, List.filter_cons,
        keepB64_b64Char (a / 4) (by omega),
        keepB64_b64Char (a % 4 * 16 + b / 16) (by omega),
        keepB64_b64Char (b % 16 * 4 + c / 64) (by omega),
        keepB64_b64Char (c % 64) (by omega), ih]

/-- Encoded output contains no whitespace. -/
theorem removeWhitespace_b64encodeBytes :
    ∀ bs : List Nat, (∀ b ∈ bs, b < 256) →
      removeWhitespace (b64encodeBytes bs) = b64encodeBytes bs
  | [], _ => by simp [b64encodeBytes, removeWhitespace]
  | [a], h => by
      have ha : a < 256 := h a (by simp)
      simp [b64encodeBytes, removeWhitespace, List.filter_cons, isPySpace_pad,
        b64Char_not_space (a / 4) (by omega),
        b64Char_not_space (a % 4 * 16) (by omega)]
  | [a, b], h => by
      have ha : a < 256 := h a (by simp)
      have hb : b < 256 := h b (by simp)
      simp [b64encodeBytes, removeWhitespace, List.filter_cons, isPySpace_pad,
        b64Char_not_space (a / 4) (by omega),
        b64Char_not_space (a % 4 * 16 + b / 16) (by omega),
        b64Char_not_space (b % 16 * 4) (by omega)]
  | a :: b :: c :: rest, h => by
      have ha : a < 256 := h a (by simp)
      have hb : b < 256 := h b (by simp)
      have hc : c < 256 := h c (by simp)
      have ih := removeWhitespace_b64encodeBytes rest (fun x hx => h x (by simp [hx]))
      simp only [removeWhitespace, b64encodeBytes, List.filter_cons] at ih ⊢
      simp [b64Char_not_space (a / 4) (by omega),
        b64Char_not_space (a % 4 * 16 + b / 16) (by omega),
        b64Char_not_space (b % 16 * 4 + c / 64) (by omega),
        b64Char_not_space (c % 64) (by omega), ih]

/-- Chunk-level decoding inverts encoding. -/
theorem b64decodeChunks_b64encodeBytes :
    ∀ bs : List Nat, (∀ b ∈ bs, b < 256) →
      b64decodeChunks (b64encodeBytes bs) = some bs
  | [], _ => by simp [b64encodeBytes, b64decodeChunks]
  | [a], h => by
      have ha : a < 256 := h a (by simp)
      simp only [b64encodeBytes, b64decodeChunks,
        b64Value_b64Char (a / 4) (by omega),
        b64Value_b64Char (a % 4 * 16) (by omega)]
      simp
      omega
  | [a, b], h => by
      have ha : a < 256 := h a (by simp)
      have hb : b < 256 := h b (by simp)
      have hy : b64Char (b % 16 * 4) ≠ '=' := b64Char_ne_pad _ (by omega)
      simp only [b64encodeBytes, b64decodeChunks,
        b64Value_b64Char (a / 4) (by omega),
        b64Value_b64Char (a % 4 * 16 + b / 16) (by omega),
        b64Value_b64Char (b % 16 * 4) (by omega),
        if_neg hy]
      simp [hy]
      omega
  | a :: b :: c :: rest, h => by
      have ha : a < 256 := h a (by simp)
      have hb : b < 256 := h b (by simp)
      have hc : c < 256 := h c (by simp)
      have ih := b64decodeChunks_b64encodeBytes rest (fun x hx => h x (by simp [hx]))
      have hy : b64Char (b % 16 * 4 + c / 64) ≠ '=' := b64Char_ne_pad _ (by omega)
      have hz : b64Char (c % 64) ≠ '=' := b64Char_ne_pad _ (by omega)
      simp only [b64encodeBytes, b64decodeChunks,
        b64Value_b64Char (a / 4) (by omega),
        b64Value_b64Char (a % 4 * 16 + b / 16) (by omega),
        b64Value_b64Char (b % 16 * 4 + c / 64) (by omega),
        b64Value_b64Char (c % 64) (by omega),
        if_neg hy, if_neg hz, ih]
      simp [hy, hz]
      omega

/-- Decoding inverts encoding on every byte list (model of `base64.b64decode` applied to `base64.b64encode` output). -/
theorem b64decodeList_b64encodeBytes (bs : List Nat) (h : ∀ b ∈ bs, b < 256) :
    b64decodeList (b64encodeBytes bs) = some bs := by
  unfold b64decodeList
  rw [b64encodeBytes_filter_keep bs h]
  rw [if_pos (b64encodeBytes_length_mod bs)]
  exact b64decodeChunks_b64encodeBytes bs h

/-! ## Dictionary and sorting lemmas -/

theorem dictLookup_dictInsert_self [DecidableEq κ] (l : List (κ × α)) (k : κ) (v : α) :
    dictLookup (dictInsert l k v) k = some v := by
  induction l with
  | nil => simp [dictInsert, dictLookup]
  | cons p rest ih =>
      by_cases h : p.1 = k
      · simp [dictInsert, dictLookup, h]
      · simp [dictInsert, dictLookup, h, ih]

theorem dictLookup_dictInsert_ne [DecidableEq κ] (l : List (κ × α)) (k k' : κ) (v : α)
    (h : k' ≠ k) : dictLookup (dictInsert l k v) k' = dictLookup l k' := by
  have hk : ¬ k = k' := fun hh => h hh.symm
  induction l with
  | nil => simp [dictInsert, dictLookup, hk]
  | cons p rest ih =>
      by_cases hp : p.1 = k
      · have hp' : ¬ p.1 = k' := by rw [hp]; exact hk
        simp [dictInsert, dictLookup, hp, hk, hp']
      · simp [dictInsert, dictLookup, hp, ih]

theorem mem_dictInsert [DecidableEq κ] (l : List (κ × α)) (k : κ) (v : α) (p : κ × α)
    (h : p ∈ dictInsert l k v) : p = (k, v) ∨ p ∈ l := by
  induction l with
  | nil => simp [dictInsert] at h; simp [h]
  | cons q rest ih =>
      by_cases hq : q.1 = k
      · simp only [dictInsert, if_pos hq, List.mem_cons] at h
        rcases h with h | h
        · exact Or.inl h
        · exact Or.inr (List.mem_cons_of_mem _ h)
      · simp only [dictInsert, if_neg hq, List.mem_cons] at h
        rcases h with h | h
        · exact Or.inr (by simp [h])
        · rcases ih h with h' | h'
          · exact Or.inl h'
          · exact Or.inr (List.mem_cons_of_mem _ h')

theorem mem_insertSorted (le : α → α → Bool) (a x : α) :
    ∀ l : List α, x ∈ insertSorted le a l → x = a ∨ x ∈ l := by
  intro l
  induction l with
  | nil => intro h; simp [insertSorted] at h; exact Or.inl h
  | cons b rest ih =>
      intro hx
      simp only [insertSorted] at hx
      by_cases h : le a b = true
      · rw [if_pos h] at hx
        rcases List.mem_cons.mp hx with h1 | h1
        · exact Or.inl h1
        · exact Or.inr h1
      · rw [if_neg h] at hx
        rcases List.mem_cons.mp hx with h1 | h1
        · exact Or.inr (by simp [h1])
        · rcases ih h1 with h2 | h2
          · exact Or.inl h2
          · exact Or.inr (List.mem_cons_of_mem _ h2)

theorem mem_sortList (le : α → α → Bool) (x : α) :
    ∀ l : List α, x ∈ sortList le l → x ∈ l := by
  intro l
  induction l with
  | nil => simp [sortList]
  | cons b rest ih =>
      intro hx
      simp only [sortList, List.foldr_cons] at hx
      rcases mem_insertSorted le b x _ hx with h | h
      · simp [h]
      · exact List.mem_cons_of_mem _ (ih h)

theorem mem_dedupKeepFirst [DecidableEq α] (x : α) :
    ∀ l : List α, x ∈ dedupKeepFirst l → x ∈ l := by
  intro l
  induction l with
  | nil => simp [dedupKeepFirst]
  | cons a rest ih =>
      intro hx
      simp only [dedupKeepFirst, List.mem_cons] at hx
      rcases hx with h | h
      · simp [h]
      · exact List.mem_cons_of_mem _ (ih (List.mem_of_mem_filter h))

/-! ## Claim C1: auto-reverse makes both directions supported -/

/-- C1: for every registry state, after successfully registering a
reversible converter class for formats A and B with auto_reverse enabled,
both `is_supported(A, B)` and `is_supported(B, A)` return true (the
reverse pair either being newly auto-registered or already present). -/
theorem C1_auto_reverse_supported (reg : Registry) (cls : ConverterClass) (A B : String)
    (reg' : Registry) (hrev : cls.isRev = true)
    (hok : register_converter reg cls (some A) (some B) true = .ok reg') :
    is_supported reg' A B = true ∧ is_supported reg' B A = true := by
  simp only [register_converter, resolveFormat, Option.getD_some] at hok
  split at hok
  · cases hok
  · split at hok
    · cases hok
    · split at hok
      · cases hok
        refine ⟨?_, ?_⟩
        · simp only [is_supported]
          by_cases hEq : (normalizeFormat B, normalizeFormat A) =
              (normalizeFormat A, normalizeFormat B)
          · rw [hEq, dictLookup_dictInsert_self]; rfl
          · rw [dictLookup_dictInsert_ne _ _ _ _ (fun hh => hEq hh.symm),
              dictLookup_dictInsert_self]
            rfl
        · simp only [is_supported]
          rw [dictLookup_dictInsert_self]; rfl
      · rename_i hauto
        cases hok
        refine ⟨?_, ?_⟩
        · simp only [is_supported]
          rw [dictLookup_dictInsert_self]; rfl
        · simp only [is_supported]
          cases hl : dictLookup
              (dictInsert reg.converters (normalizeFormat A, normalizeFormat B) cls)
              (normalizeFormat B, normalizeFormat A) with
          | none => rw [hrev, hl] at hauto; simp at hauto
          | some c => rfl

/-- C1 witness: registering `BinaryBase64Converter` for
`(binary, base64)` makes both directions supported. -/
theorem C1_witness :
    is_supported regBinB64Direct "binary" "base64" = true ∧
    is_supported regBinB64Direct "base64" "binary" = true :=
  C1_auto_reverse_supported emptyRegistry BinaryBase64Converter "binary" "base64"
    regBinB64Direct rfl rfl

/-! ## Claim C2: the auto-derived reverse never overwrites an earlier
explicit registration -/

/-- C2 counterexample: when A and B normalize to the *same* name, the
claim fails: with `(a, a)` registered to `PlainConverter`, registering
the reversible `SelfRevConverter` for `(a, a)` with auto-reverse leaves
`(a, a)` mapped to `SelfRevConverter`, not to the earlier converter (the
overwrite comes from the forward insertion, which happens before the
auto-reverse check). -/
theorem C2_counterexample :
    dictLookup regSelfPairBefore.converters ("a", "a") = some PlainConverter ∧
    register_converter regSelfPairBefore SelfRevConverter (some "a") (some "a") true =
      .ok regSelfPairAfter ∧
    dictLookup regSelfPairAfter.converters ("a", "a") ≠ some PlainConverter := by
  refine ⟨rfl, rfl, ?_⟩
  intro h
  have h2 : some SelfRevConverter = some PlainConverter := h
  have h3 : SelfRevConverter.name = PlainConverter.name :=
    congrArg ConverterClass.name (Option.some.inj h2)
  exact absurd h3 (by decide)

/-- C2 amended: provided A and B normalize to *distinct* names, a
pre-registered `(B, A)` entry survives a reversible `(A, B)` registration
with auto-reverse unchanged. -/
theorem C2_explicit_wins (reg : Registry) (clsC clsNew : ConverterClass) (A B : String)
    (reg' : Registry) (hne : normalizeFormat A ≠ normalizeFormat B)
    (hBA : dictLookup reg.converters (normalizeFormat B, normalizeFormat A) = some clsC)
    (hok : register_converter reg clsNew (some A) (some B) true = .ok reg') :
    dictLookup reg'.converters (normalizeFormat B, normalizeFormat A) = some clsC := by
  simp only [register_converter, resolveFormat, Option.getD_some] at hok
  have hkey : (normalizeFormat B, normalizeFormat A) ≠
      (normalizeFormat A, normalizeFormat B) := by
    intro hh
    exact hne (congrArg Prod.fst hh).symm
  have hconv1 : dictLookup
      (dictInsert reg.converters (normalizeFormat A, normalizeFormat B) clsNew)
      (normalizeFormat B, normalizeFormat A) = some clsC := by
    rw [dictLookup_dictInsert_ne _ _ _ _ hkey]
    exact hBA
  split at hok
  · cases hok
  · split at hok
    · cases hok
    · split at hok
      · rename_i hauto
        rw [hconv1] at hauto
        simp at hauto
      · cases hok
        exact hconv1

/-- C2 witness (for the amended claim): `(b, a)` registered to
`PlainConverter` survives the reversible registration of
`SelfRevConverter` for `(a, b)`. -/
theorem C2_witness :
    dictLookup regExplicitBAafter.converters (normalizeFormat "b", normalizeFormat "a") =
      some PlainConverter :=
  C2_explicit_wins regExplicitBA PlainConverter SelfRevConverter "a" "b"
    regExplicitBAafter (by decide) rfl rfl

/-! ## Claim C3: unknown pairs raise UnsupportedFormatError carrying the
supported-format list -/

/-- C3: for every registry state and every pair of format names whose
normalized pair is not registered, `get_converter` raises
`UnsupportedFormatError`, and the `available_formats` attribute attached
to that error equals the sorted list returned by
`get_supported_formats()` at the time of the call. -/
theorem C3_unknown_pair_error (reg : Registry) (fF tF : String)
    (h : is_supported reg fF tF = false) :
    get_converter reg fF tF =
      .error (.unsupportedFormatError (normalizeFormat fF) (normalizeFormat tF)
        (get_supported_formats reg)) ∧
    availableFormatsAttr (.unsupportedFormatError (normalizeFormat fF) (normalizeFormat tF)
        (get_supported_formats reg)) = get_supported_formats reg := by
  have hl : dictLookup reg.converters (normalizeFormat fF, normalizeFormat tF) = none := by
    simp only [is_supported] at h
    cases hl : dictLookup reg.converters (normalizeFormat fF, normalizeFormat tF) with
    | none => rfl
    | some c => rw [hl] at h; simp at h
  refine ⟨?_, ?_⟩
  · simp only [get_converter, hl]
  · simp only [availableFormatsAttr]
    by_cases hgs : (get_supported_formats reg).isEmpty = true
    · rw [if_pos hgs]
      exact (List.isEmpty_iff.mp hgs).symm
    · rw [if_neg hgs]

/-- C3 witness: the unsupported request `(pdf, mp3)` on the empty
registry. -/
theorem C3_witness :
    get_converter emptyRegistry "pdf" "mp3" =
      .error (.unsupportedFormatError (normalizeFormat "pdf") (normalizeFormat "mp3")
        (get_supported_formats emptyRegistry)) ∧
    availableFormatsAttr (.unsupportedFormatError (normalizeFormat "pdf")
        (normalizeFormat "mp3") (get_supported_formats emptyRegistry)) =
      get_supported_formats emptyRegistry :=
  C3_unknown_pair_error emptyRegistry "pdf" "mp3" rfl

/-! ## Claim C5: registration-time failures raise ConversionError, not
ConfigurationError -/

/-- C5 counterexample: registering a class with no format information
raises the *generic* `ConversionError` (registry.py line 88), not a
`ConfigurationError` as the claim states. -/
theorem C5_counterexample :
    register_converter emptyRegistry PlainConverter none none true =
      .error (.conversionError
        "Cannot register PlainConverter: missing format information. Provide from_format and to_format parameters or use @converter_info decorator."
        none none none) ∧
    isConfigurationErr (.conversionError
        "Cannot register PlainConverter: missing format information. Provide from_format and to_format parameters or use @converter_info decorator."
        none none none) = false :=
  ⟨rfl, rfl⟩

/-- C5 amended: registration-time failures (unresolved format names, or a
factory that is not a `BaseConverter` subclass) raise the generic
`ConversionError`, not `ConfigurationError`. -/
theorem C5_registration_raises_conversionError (reg : Registry) (cls : ConverterClass)
    (fF tF : Option String) (ar : Bool)
    (h : isFalsy (resolveFormat fF cls.metaFrom) = true ∨
         isFalsy (resolveFormat tF cls.metaTo) = true ∨ cls.isBase = false) :
    ∃ msg, register_converter reg cls fF tF ar =
      .error (.conversionError msg none none none) := by
  simp only [register_converter]
  by_cases hfal : (isFalsy (resolveFormat fF cls.metaFrom) ||
      isFalsy (resolveFormat tF cls.metaTo)) = true
  · rw [if_pos hfal]
    exact ⟨_, rfl⟩
  · rw [if_neg hfal]
    have hbase : cls.isBase = false := by
      rcases h with h | h | h
      · exact absurd (by simp [h]) hfal
      · exact absurd (by simp [h]) hfal
      · exact h
    rw [if_pos (by simp [hbase])]
    exact ⟨_, rfl⟩

/-- C5 witness (for the amended claim): a class with neither explicit
formats nor metadata. -/
theorem C5_witness :
    ∃ msg, register_converter emptyRegistry PlainConverter none none true =
      .error (.conversionError msg none none none) :=
  C5_registration_raises_conversionError emptyRegistry PlainConverter none none true
    (Or.inl rfl)

/-! ## Claim C7: re-registering a pair is last-write-wins -/

/-- C7: when the normalized pair is already registered with `cls1`,
registering a second valid converter `cls2` for the same pair succeeds
without raising, and afterwards the pair maps to `cls2` and
`get_converter` returns an instance of `cls2`. -/
theorem C7_last_write_wins (reg : Registry) (cls1 cls2 : ConverterClass) (fF tF : String)
    (ar : Bool)
    (hfirst : dictLookup reg.converters (normalizeFormat fF, normalizeFormat tF) = some cls1)
    (hbase : cls2.isBase = true) (hf : ¬ fF = "") (ht : ¬ tF = "") :
    ∃ reg', register_converter reg cls2 (some fF) (some tF) ar = .ok reg' ∧
      dictLookup reg'.converters (normalizeFormat fF, normalizeFormat tF) = some cls2 ∧
      get_converter reg' fF tF = .ok (instNew cls2 (normalizeFormat fF) (normalizeFormat tF)) := by
  simp only [register_converter, resolveFormat, Option.getD_some]
  rw [if_neg (by simp [isFalsy, hf, ht])]
  rw [if_neg (by simp [hbase])]
  by_cases hauto : (ar && cls2.isRev && (dictLookup
      (dictInsert reg.converters (normalizeFormat fF, normalizeFormat tF) cls2)
      (normalizeFormat tF, normalizeFormat fF)).isNone) = true
  · rw [if_pos hauto]
    have hlook : dictLookup
        (dictInsert (dictInsert reg.converters (normalizeFormat fF, normalizeFormat tF) cls2)
          (normalizeFormat tF, normalizeFormat fF) cls2)
        (normalizeFormat fF, normalizeFormat tF) = some cls2 := by
      by_cases hEq : (normalizeFormat fF, normalizeFormat tF) =
          (normalizeFormat tF, normalizeFormat fF)
      · rw [← hEq, dictLookup_dictInsert_self]
      · rw [dictLookup_dictInsert_ne _ _ _ _ hEq, dictLookup_dictInsert_self]
    refine ⟨_, rfl, hlook, ?_⟩
    simp only [get_converter, hlook]
  · rw [if_neg hauto]
    have hlook : dictLookup
        (dictInsert reg.converters (normalizeFormat fF, normalizeFormat tF) cls2)
        (normalizeFormat fF, normalizeFormat tF) = some cls2 :=
      dictLookup_dictInsert_self _ _ _
    refine ⟨_, rfl, hlook, ?_⟩
    simp only [get_converter, hlook]

/-- C7 witness: re-registering `(x, y)` replaces `PlainConverter` with
`SelfRevConverter`. -/
theorem C7_witness :
    ∃ reg', register_converter regXYfirst SelfRevConverter (some "x") (some "y") false =
      .ok reg' ∧
      dictLookup reg'.converters (normalizeFormat "x", normalizeFormat "y") =
        some SelfRevConverter ∧
      get_converter reg' "x" "y" =
        .ok (instNew SelfRevConverter (normalizeFormat "x") (normalizeFormat "y")) :=
  C7_last_write_wins regXYfirst PlainConverter SelfRevConverter "x" "y" false
    rfl rfl (by decide) (by decide)

/-! ## Claim C8: the registration decorator does not re-raise -/

/-- C8 counterexample: the decorator applied to a class with no format
information returns normally with the registry unchanged, although the
underlying `register_converter` call raises — the decorator catches and
only logs the error (registry.py lines 361-369), contradicting the claim
that it re-raises. -/
theorem C8_counterexample :
    register_converter emptyRegistry
        (setDecoratorMeta none none "desc" false PlainConverter) none none false =
      .error (.conversionError
        "Cannot register PlainConverter: missing format information. Provide from_format and to_format parameters or use @converter_info decorator."
        none none none) ∧
    registerDecorator none none "desc" false PlainConverter emptyRegistry =
      (setDecoratorMeta none none "desc" false PlainConverter, emptyRegistry) :=
  ⟨rfl, rfl⟩

/-- C8 amended: whenever the underlying registration raises, the
decorator catches the error (logging only), returns the class with its
metadata attached, and leaves the registry unchanged; no error reaches
the caller. -/
theorem C8_decorator_swallows_errors (fF tF : Option String) (d : String) (rev : Bool)
    (cls : ConverterClass) (reg : Registry) (e : PyErr)
    (herr : register_converter reg (setDecoratorMeta fF tF d rev cls) fF tF rev = .error e) :
    registerDecorator fF tF d rev cls reg = (setDecoratorMeta fF tF d rev cls, reg) := by
  simp only [registerDecorator, herr]

/-- C8 witness (for the amended claim). -/
theorem C8_witness :
    registerDecorator none none "" false PlainConverter emptyRegistry =
      (setDecoratorMeta none none "" false PlainConverter, emptyRegistry) :=
  C8_decorator_swallows_errors none none "" false PlainConverter emptyRegistry
    (.conversionError
      "Cannot register PlainConverter: missing format information. Provide from_format and to_format parameters or use @converter_info decorator."
      none none none) rfl

theorem applyRequest_noEmpty (reg : Registry) (r : RegRequest)
    (hreg : NoEmptyNames reg) (hr : goodRequest r) :
    NoEmptyNames (applyRequest reg r) := by
  unfold applyRequest
  cases hres : register_converter reg r.cls r.from_format r.to_format r.auto_reverse with
  | error e => exact hreg
  | ok reg' =>
    simp only [register_converter] at hres
    split at hres
    · cases hres
    · split at hres
      · cases hres
      · split at hres
        · cases hres
          intro p hp
          rcases mem_dictInsert _ _ _ _ hp with h1 | h1
          · rw [h1]
            exact ⟨hr.2, hr.1⟩
          · rcases mem_dictInsert _ _ _ _ h1 with h2 | h2
            · rw [h2]
              exact ⟨hr.1, hr.2⟩
            · exact hreg p h2
        · cases hres
          intro p hp
          rcases mem_dictInsert _ _ _ _ hp with h1 | h1
          · rw [h1]
            exact ⟨hr.1, hr.2⟩
          · exact hreg p h1

theorem applyRequests_noEmpty (rs : List RegRequest) :
    ∀ reg : Registry, NoEmptyNames reg → (∀ r ∈ rs, goodRequest r) →
      NoEmptyNames (applyRequests reg rs) := by
  induction rs with
  | nil => intro reg hreg _; exact hreg
  | cons r rest ih =>
      intro reg hreg hrs
      simp only [applyRequests, List.foldl_cons]
      exact ih _ (applyRequest_noEmpty reg r hreg (hrs r (by simp)))
        (fun q hq => hrs q (by simp [hq]))

/-- C9 counterexample: the whitespace-only format argument `" "` is
truthy in Python, so it passes the falsiness check (registry.py line 87)
*before* normalization strips it to the empty string; the registration
succeeds and `get_supported_formats()` contains `""`. -/
theorem C9_counterexample :
    register_converter emptyRegistry PlainConverter (some " ") (some "b64") false =
      .ok regWhitespaceName ∧
    get_supported_formats regWhitespaceName = ["", "b64"] ∧
    "" ∈ get_supported_formats regWhitespaceName := by
  refine ⟨rfl, by decide, by decide⟩

/-- C9 amended: for every sequence of register operations whose resolved
format arguments do not normalize to the empty string, starting from a
registry with no empty names, every stored format name — hence every
element of `get_supported_formats()` — is non-empty. -/
theorem C9_no_empty_names (rs : List RegRequest) (reg : Registry)
    (hreg : NoEmptyNames reg) (hrs : ∀ r ∈ rs, goodRequest r) :
    NoEmptyNames (applyRequests reg rs) ∧
    ∀ s ∈ get_supported_formats (applyRequests reg rs), s ≠ "" := by
  have h1 := applyRequests_noEmpty rs reg hreg hrs
  refine ⟨h1, ?_⟩
  intro s hs
  have hs1 := mem_sortList _ _ _ hs
  have hs2 := mem_dedupKeepFirst _ _ hs1
  rw [List.mem_flatten] at hs2
  obtain ⟨l', hl', hsl⟩ := hs2
  rw [List.mem_map] at hl'
  obtain ⟨p, hp, hpl⟩ := hl'
  have hpe := h1 p hp
  rw [← hpl] at hsl
  simp only [List.mem_cons, List.mem_singleton] at hsl
  rcases hsl with rfl | hsl
  · exact hpe.1
  · rcases hsl with rfl | hfalse
    · exact hpe.2
    · exact absurd hfalse (List.not_mem_nil s)

/-- C9 witness (for the amended claim). -/
theorem C9_witness :
    NoEmptyNames (applyRequests emptyRegistry
      [{ cls := PlainConverter, from_format := some "x", to_format := some "y",
         auto_reverse := false }]) :=
  (C9_no_empty_names _ emptyRegistry
    (fun p hp => absurd hp (List.not_mem_nil p))
    (fun r hr => by
      simp only [List.mem_singleton] at hr
      subst hr
      exact ⟨by decide, by decide⟩)).1

/-! ## Claim C6: exception propagation of Converter.convert -/

/-- C6 (code bug): a converter whose `validate_input` raises the built-in
`ValueError` makes `convert` raise `TypeError`, not a taxonomy error: the
`handle_conversion_error` wrapper calls
`ValidationError(msg, original_error=e)` but `ValidationError.__init__`
accepts no `original_error` keyword (exceptions.py lines 95, 202), so the
wrapper itself crashes with `TypeError`, which escapes `convert`. -/
theorem C6_valueError_validation_escapes_typeError :
    instConvert (instNew BadValidateConverter "x" "y") (.pyStr "data") [] =
      .error (.typeError
        "ValidationError.__init__ got an unexpected keyword argument original_error") ∧
    isConversionErr (.typeError
        "ValidationError.__init__ got an unexpected keyword argument original_error") = false :=
  ⟨rfl, rfl⟩

/-! ## Claim C4: binary/base64 round trip -/

/-- Encoding direction through the full pipeline: validation passes for
bytes, `_convert` routes `binary -> base64` to `b64encode`. -/
theorem binB64_encode_ok (bs : List Nat) :
    instConvert (instNew BinaryBase64Converter "binary" "base64") (.pyBytes bs) [] =
      .ok (.pyStr (String.mk (b64encodeBytes bs))) := rfl

/-- Decoding direction through the full pipeline, given that cleaning and
decoding the string succeeds. -/
theorem binB64_decode_ok (s : List Char) (bs : List Nat)
    (hdec : b64decodeList (removeWhitespace s) = some bs) :
    instConvert (instNew BinaryBase64Converter "base64" "binary")
      (.pyStr (String.mk s)) [] = .ok (.pyBytes bs) := by
  have h1 : lowerString "base64" = "base64" := rfl
  have h2 : lowerString "binary" = "binary" := rfl
  simp only [instConvert, instConvertBody, instValidateInput, instNew,
    instValidateOptions, BinaryBase64Converter, handleConversionError, h1, h2]
  simp [hdec]

/-- C4: with the binary/base64 reversible converter registered (as its
decorator does at module load), converting any byte value to base64 and
back returns the original bytes; in particular `b"Hello World"` encodes
to `"SGVsbG8gV29ybGQ="` and that string decodes back to
`b"Hello World"`. -/
theorem C4_binary_base64_roundtrip :
    (∀ bs : List Nat, (∀ b ∈ bs, b < 256) →
      registry_convert binBase64Registry (.pyBytes bs) "binary" "base64" [] =
        .ok (.pyStr (String.mk (b64encodeBytes bs))) ∧
      registry_convert binBase64Registry (.pyStr (String.mk (b64encodeBytes bs)))
        "base64" "binary" [] = .ok (.pyBytes bs)) ∧
    registry_convert binBase64Registry (.pyBytes helloWorldBytes) "binary" "base64" [] =
      .ok (.pyStr "SGVsbG8gV29ybGQ=") ∧
    registry_convert binBase64Registry (.pyStr "SGVsbG8gV29ybGQ=") "base64" "binary" [] =
      .ok (.pyBytes helloWorldBytes) := by
  refine ⟨?_, ?_, ?_⟩
  · intro bs h
    refine ⟨rfl, ?_⟩
    have hdec : b64decodeList (removeWhitespace (b64encodeBytes bs)) = some bs := by
      rw [removeWhitespace_b64encodeBytes bs h]
      exact b64decodeList_b64encodeBytes bs h
    exact binB64_decode_ok (b64encodeBytes bs) bs hdec
  · rfl
  · rfl

/-- C4 witness: the round trip at the concrete bytes `[0, 255, 10]`. -/
theorem C4_witness :
    registry_convert binBase64Registry (.pyBytes [0, 255, 10]) "binary" "base64" [] =
      .ok (.pyStr (String.mk (b64encodeBytes [0, 255, 10]))) ∧
    registry_convert binBase64Registry
        (.pyStr (String.mk (b64encodeBytes [0, 255, 10]))) "base64" "binary" [] =
      .ok (.pyBytes [0, 255, 10]) :=
  C4_binary_base64_roundtrip.1 [0, 255, 10] (by decide)

theorem projEq_name {c1 c2 : ConverterClass} (h : projEq c1 c2) : c1.name = c2.name := by
  simpa [eraseDescMeta] using congrArg ConverterClass.name h

theorem projEq_isBase {c1 c2 : ConverterClass} (h : projEq c1 c2) :
    c1.isBase = c2.isBase := by
  simpa [eraseDescMeta] using congrArg ConverterClass.isBase h

theorem projEq_isRev {c1 c2 : ConverterClass} (h : projEq c1 c2) :
    c1.isRev = c2.isRev := by
  simpa [eraseDescMeta] using congrArg ConverterClass.isRev h

theorem projEq_metaFrom {c1 c2 : ConverterClass} (h : projEq c1 c2) :
    c1.metaFrom = c2.metaFrom := by
  simpa [eraseDescMeta] using congrArg ConverterClass.metaFrom h

theorem projEq_metaTo {c1 c2 : ConverterClass} (h : projEq c1 c2) :
    c1.metaTo = c2.metaTo := by
  simpa [eraseDescMeta] using congrArg ConverterClass.metaTo h

theorem projEq_initDescription {c1 c2 : ConverterClass} (h : projEq c1 c2) :
    c1.initDescription = c2.initDescription := by
  simpa [eraseDescMeta] using congrArg ConverterClass.initDescription h

theorem projEq_validateExtra {c1 c2 : ConverterClass} (h : projEq c1 c2) :
    c1.validateExtra = c2.validateExtra := by
  simpa [eraseDescMeta] using congrArg ConverterClass.validateExtra h

theorem projEq_convertCore {c1 c2 : ConverterClass} (h : projEq c1 c2) :
    c1.convertCore = c2.convertCore := by
  simpa [eraseDescMeta] using congrArg ConverterClass.convertCore h

/-- Instances of projection-equal classes are equal: `__init__` never
reads `_converter_description`. -/
theorem instNew_projEq {c1 c2 : ConverterClass} (h : projEq c1 c2) (f t : String) :
    instNew c1 f t = instNew c2 f t := by
  unfold instNew
  rw [projEq_name h, projEq_initDescription h, projEq_validateExtra h, projEq_convertCore h]

theorem convListRel_refl (l : List ((String × String) × ConverterClass)) :
    convListRel l l := by
  induction l with
  | nil => exact List.Forall₂.nil
  | cons p rest ih => exact List.Forall₂.cons ⟨rfl, rfl⟩ ih

theorem convListRel_lookup {l1 l2 : List ((String × String) × ConverterClass)}
    (h : convListRel l1 l2) (k : String × String) :
    (dictLookup l1 k = none ∧ dictLookup l2 k = none) ∨
    ∃ c1 c2, dictLookup l1 k = some c1 ∧ dictLookup l2 k = some c2 ∧ projEq c1 c2 := by
  induction h with
  | nil => exact Or.inl ⟨rfl, rfl⟩
  | cons hpq hrest ih =>
      rename_i p q l1' l2'
      obtain ⟨pk, pv⟩ := p
      obtain ⟨qk, qv⟩ := q
      have hkey : pk = qk := hpq.1
      by_cases hk : pk = k
      · right
        refine ⟨pv, qv, ?_, ?_, hpq.2⟩
        · simp [dictLookup, hk]
        · simp [dictLookup, hkey ▸ hk]
      · have hk2 : ¬ qk = k := fun hh => hk (hkey.trans hh)
        rcases ih with ⟨ha, hb⟩ | ⟨c1, c2, ha, hb, hc⟩
        · exact Or.inl ⟨by simp [dictLookup, hk, ha], by simp [dictLookup, hk2, hb]⟩
        · exact Or.inr ⟨c1, c2, by simp [dictLookup, hk, ha],
            by simp [dictLookup, hk2, hb], hc⟩

theorem convListRel_insert {l1 l2 : List ((String × String) × ConverterClass)}
    (h : convListRel l1 l2) (k : String × String) {c1 c2 : ConverterClass}
    (hc : projEq c1 c2) :
    convListRel (dictInsert l1 k c1) (dictInsert l2 k c2) := by
  induction h with
  | nil => exact List.Forall₂.cons ⟨rfl, hc⟩ List.Forall₂.nil
  | cons hpq hrest ih =>
      rename_i p q l1' l2'
      obtain ⟨pk, pv⟩ := p
      obtain ⟨qk, qv⟩ := q
      have hkey : pk = qk := hpq.1
      by_cases hk : pk = k
      · have hk2 : qk = k := hkey ▸ hk
        simp only [dictInsert, if_pos hk, if_pos hk2]
        exact List.Forall₂.cons ⟨rfl, hc⟩ hrest
      · have hk2 : ¬ qk = k := fun hh => hk (hkey.trans hh)
        simp only [dictInsert, if_neg hk, if_neg hk2]
        exact List.Forall₂.cons hpq ih

theorem convListRel_keys {l1 l2 : List ((String × String) × ConverterClass)}
    (h : convListRel l1 l2) :
    l1.map (fun p => [p.1.1, p.1.2]) = l2.map (fun p => [p.1.1, p.1.2]) := by
  induction h with
  | nil => rfl
  | cons hpq hrest ih =>
      rename_i p q l1' l2'
      simp only [List.map_cons, ih, hpq.1]

theorem get_supported_formats_rel {r1 r2 : Registry}
    (h : convListRel r1.converters r2.converters) :
    get_supported_formats r1 = get_supported_formats r2 := by
  unfold get_supported_formats
  rw [convListRel_keys h]

theorem convListRel_entries {l1 l2 : List ((String × String) × ConverterClass)}
    (h : convListRel l1 l2) :
    l1.map (fun p => ConvInfo.mk p.1.1 p.1.2 (instNew p.2 p.1.1 p.1.2).description
      p.2.name p.2.isRev) =
    l2.map (fun p => ConvInfo.mk p.1.1 p.1.2 (instNew p.2 p.1.1 p.1.2).description
      p.2.name p.2.isRev) := by
  induction h with
  | nil => rfl
  | cons hpq hrest ih =>
      rename_i p q l1' l2'
      simp only [List.map_cons, ih]
      congr 1
      rw [hpq.1, instNew_projEq hpq.2, projEq_name hpq.2, projEq_isRev hpq.2]

theorem list_conversions_rel {r1 r2 : Registry}
    (h : convListRel r1.converters r2.converters) :
    list_conversions r1 = list_conversions r2 :=
  congrArg (sortList convInfoLe) (convListRel_entries h)

theorem get_converter_rel {r1 r2 : Registry}
    (h : convListRel r1.converters r2.converters) (f t : String) :
    get_converter r1 f t = get_converter r2 f t := by
  simp only [get_converter]
  rcases convListRel_lookup h (normalizeFormat f, normalizeFormat t) with
    ⟨h1, h2⟩ | ⟨c1, c2, h1, h2, hc⟩
  · simp only [h1, h2]
    rw [get_supported_formats_rel h]
  · simp only [h1, h2]
    rw [instNew_projEq hc]

/-- Explicit description of a successful registration. -/
theorem register_converter_ok_eq (reg : Registry) (cls : ConverterClass)
    (fF tF : Option String) (ar : Bool)
    (hfal : (isFalsy (resolveFormat fF cls.metaFrom) ||
      isFalsy (resolveFormat tF cls.metaTo)) = false)
    (hbase : cls.isBase = true) :
    register_converter reg cls fF tF ar =
      .ok (if ar && cls.isRev && (dictLookup
            (dictInsert reg.converters
              (normalizeFormat ((resolveFormat fF cls.metaFrom).getD ""),
               normalizeFormat ((resolveFormat tF cls.metaTo).getD "")) cls)
            (normalizeFormat ((resolveFormat tF cls.metaTo).getD ""),
             normalizeFormat ((resolveFormat fF cls.metaFrom).getD ""))).isNone then
          { converters := dictInsert
              (dictInsert reg.converters
                (normalizeFormat ((resolveFormat fF cls.metaFrom).getD ""),
                 normalizeFormat ((resolveFormat tF cls.metaTo).getD "")) cls)
              (normalizeFormat ((resolveFormat tF cls.metaTo).getD ""),
               normalizeFormat ((resolveFormat fF cls.metaFrom).getD "")) cls
            format_graph := graphAdd (graphAdd reg.format_graph
              (normalizeFormat ((resolveFormat fF cls.metaFrom).getD ""))
              (normalizeFormat ((resolveFormat tF cls.metaTo).getD "")))
              (normalizeFormat ((resolveFormat tF cls.metaTo).getD ""))
              (normalizeFormat ((resolveFormat fF cls.metaFrom).getD ""))
            format_converters := fcAppend (fcAppend reg.format_converters
              (normalizeFormat ((resolveFormat fF cls.metaFrom).getD "")) cls)
              (normalizeFormat ((resolveFormat tF cls.metaTo).getD "")) cls
            registered_count := reg.registered_count + 2 }
        else
          { converters := dictInsert reg.converters
              (normalizeFormat ((resolveFormat fF cls.metaFrom).getD ""),
               normalizeFormat ((resolveFormat tF cls.metaTo).getD "")) cls
            format_graph := graphAdd reg.format_graph
              (normalizeFormat ((resolveFormat fF cls.metaFrom).getD ""))
              (normalizeFormat ((resolveFormat tF cls.metaTo).getD ""))
            format_converters := fcAppend (fcAppend reg.format_converters
              (normalizeFormat ((resolveFormat fF cls.metaFrom).getD "")) cls)
              (normalizeFormat ((resolveFormat tF cls.metaTo).getD "")) cls
            registered_count := reg.registered_count + 1 }) := by
  simp only [register_converter]
  rw [if_neg (by simp [hfal]), if_neg (by simp [hbase])]
  by_cases har : (ar && cls.isRev && (dictLookup
      (dictInsert reg.converters
        (normalizeFormat ((resolveFormat fF cls.metaFrom).getD ""),
         normalizeFormat ((resolveFormat tF cls.metaTo).getD "")) cls)
      (normalizeFormat ((resolveFormat tF cls.metaTo).getD ""),
       normalizeFormat ((resolveFormat fF cls.metaFrom).getD ""))).isNone) = true
  · rw [if_pos har, if_pos har]
  · rw [if_neg har, if_neg har]

/-- Registering projection-equal classes into observationally equal
registries either fails on both (same failure conditions) or succeeds on
both with observationally equal results. -/
theorem register_converter_rel (reg1 reg2 : Registry) (c1 c2 : ConverterClass)
    (fF tF : Option String) (ar : Bool)
    (hreg : convListRel reg1.converters reg2.converters) (hc : projEq c1 c2) :
    (∃ e1 e2, register_converter reg1 c1 fF tF ar = .error e1 ∧
      register_converter reg2 c2 fF tF ar = .error e2) ∨
    (∃ r1 r2, register_converter reg1 c1 fF tF ar = .ok r1 ∧
      register_converter reg2 c2 fF tF ar = .ok r2 ∧
      convListRel r1.converters r2.converters) := by
  have hFrom := projEq_metaFrom hc
  have hTo := projEq_metaTo hc
  have hBase := projEq_isBase hc
  have hRev := projEq_isRev hc
  by_cases hfal : (isFalsy (resolveFormat fF c2.metaFrom) ||
      isFalsy (resolveFormat tF c2.metaTo)) = true
  · have E1 : register_converter reg1 c1 fF tF ar = .error (.conversionError
        ("Cannot register " ++ c1.name ++ ": missing format information. " ++
         "Provide from_format and to_format parameters or use @converter_info decorator.")
        none none none) := by
      simp only [register_converter, hFrom, hTo]
      rw [if_pos hfal]
    have E2 : register_converter reg2 c2 fF tF ar = .error (.conversionError
        ("Cannot register " ++ c2.name ++ ": missing format information. " ++
         "Provide from_format and to_format parameters or use @converter_info decorator.")
        none none none) := by
      simp only [register_converter]
      rw [if_pos hfal]
    exact Or.inl ⟨_, _, E1, E2⟩
  · by_cases hb : c2.isBase = false
    · have E1 : register_converter reg1 c1 fF tF ar = .error (.conversionError
          ("Converter " ++ c1.name ++ " must inherit from BaseConverter")
          none none none) := by
        simp only [register_converter, hFrom, hTo, hBase]
        rw [if_neg hfal, if_pos (by simp [hb])]
      have E2 : register_converter reg2 c2 fF tF ar = .error (.conversionError
          ("Converter " ++ c2.name ++ " must inherit from BaseConverter")
          none none none) := by
        simp only [register_converter]
        rw [if_neg hfal, if_pos (by simp [hb])]
      exact Or.inl ⟨_, _, E1, E2⟩
    · have hfal2 : (isFalsy (resolveFormat fF c2.metaFrom) ||
          isFalsy (resolveFormat tF c2.metaTo)) = false := by
        revert hfal
        cases (isFalsy (resolveFormat fF c2.metaFrom) ||
          isFalsy (resolveFormat tF c2.metaTo)) <;> simp
      have hfal1 : (isFalsy (resolveFormat fF c1.metaFrom) ||
          isFalsy (resolveFormat tF c1.metaTo)) = false := by
        rw [hFrom, hTo]; exact hfal2
      have hbase2 : c2.isBase = true := by
        revert hb
        cases c2.isBase <;> simp
      have hbase1 : c1.isBase = true := by rw [hBase]; exact hbase2
      have E1 := register_converter_ok_eq reg1 c1 fF tF ar hfal1 hbase1
      have E2 := register_converter_ok_eq reg2 c2 fF tF ar hfal2 hbase2
      rw [hFrom, hTo, hRev] at E1
      have hins := convListRel_insert hreg
        (normalizeFormat ((resolveFormat fF c2.metaFrom).getD ""),
         normalizeFormat ((resolveFormat tF c2.metaTo).getD "")) hc
      rcases convListRel_lookup hins
          (normalizeFormat ((resolveFormat tF c2.metaTo).getD ""),
           normalizeFormat ((resolveFormat fF c2.metaFrom).getD "")) with
        ⟨hl1, hl2⟩ | ⟨d1, d2, hl1, hl2, _⟩
      · rw [hl1] at E1
        rw [hl2] at E2
        simp only [Option.isNone_none, Bool.and_true] at E1 E2
        by_cases har : (ar && c2.isRev) = true
        · rw [if_pos har] at E1 E2
          exact Or.inr ⟨_, _, E1, E2, convListRel_insert hins _ hc⟩
        · rw [if_neg har] at E1 E2
          exact Or.inr ⟨_, _, E1, E2, hins⟩
      · rw [hl1] at E1
        rw [hl2] at E2
        simp only [Option.isNone_some, Bool.and_false, Bool.false_eq_true,
          if_false] at E1 E2
        exact Or.inr ⟨_, _, E1, E2, hins⟩

/-- C10: two registrations of the same converter class that differ only
in the decorator's `description` argument yield registries whose
`list_conversions()` output and `get_converter` results are identical. -/
theorem C10_description_unobservable (cls : ConverterClass) (fF tF : Option String)
    (rev : Bool) (d1 d2 : String) (reg : Registry) (f t : String) :
    list_conversions (registerDecorator fF tF d1 rev cls reg).2 =
      list_conversions (registerDecorator fF tF d2 rev cls reg).2 ∧
    get_converter (registerDecorator fF tF d1 rev cls reg).2 f t =
      get_converter (registerDecorator fF tF d2 rev cls reg).2 f t := by
  have hc : projEq (setDecoratorMeta fF tF d1 rev cls)
      (setDecoratorMeta fF tF d2 rev cls) := rfl
  rcases register_converter_rel reg reg _ _ fF tF rev (convListRel_refl _) hc with
    ⟨e1, e2, h1, h2⟩ | ⟨r1, r2, h1, h2, hrel⟩
  · have hEq1 : (registerDecorator fF tF d1 rev cls reg).2 = reg := by
      simp only [registerDecorator, h1]
    have hEq2 : (registerDecorator fF tF d2 rev cls reg).2 = reg := by
      simp only [registerDecorator, h2]
    rw [hEq1, hEq2]
    exact ⟨rfl, rfl⟩
  · have hEq1 : (registerDecorator fF tF d1 rev cls reg).2 = r1 := by
      simp only [registerDecorator, h1]
    have hEq2 : (registerDecorator fF tF d2 rev cls reg).2 = r2 := by
      simp only [registerDecorator, h2]
    rw [hEq1, hEq2]
    exact ⟨list_conversions_rel hrel, get_converter_rel hrel f t⟩
